import Mathlib

/-!
Shallow embedding of the jlm RVSDG core pieces referenced by the claims:
binary operators and their normal forms (jlm/rvsdg/binary.hpp), CFG node
edge mechanics (include/jlm/ir/cfg_node.hpp and include/jlm/jlm/ir/cfg-node.hpp),
the MLIR frontend conversions (jlm/mlir/frontend/MlirToJlmConverter.cpp),
the jlm-to-LLVM linkage conversion (src/libjlm/jlm2llvm/jlm2llvm.cpp), and
the store normalization behaviour exercised by
tests/jlm/llvm/ir/operators/TestStore.cpp.
-/

namespace jlm

/-- Error taxonomy of the spec (section 7). `JLM_ASSERT` failures in
constructors are modelled as returning the corresponding error kind. -/
inductive ErrorKind where
  | TypeMismatch
  | RegionMismatch
  | ArityMismatch
  | InvariantViolation
  | UnreducibleOperator
deriving DecidableEq, Repr

namespace rvsdg

/-- `typedef size_t binop_reduction_path_t;` (binary.hpp line 18). -/
abbrev binop_reduction_path_t := Nat

/-- `static const binop_reduction_path_t binop_reduction_none = 0;` -/
def binop_reduction_none : binop_reduction_path_t := 0

/-- both operands are constants -/
def binop_reduction_constants : binop_reduction_path_t := 1

/-- can merge both operands into single (using some "simpler" operator) -/
def binop_reduction_merge : binop_reduction_path_t := 2

/-- part of left operand can be folded into right -/
def binop_reduction_lfold : binop_reduction_path_t := 3

/-- part of right operand can be folded into left -/
def binop_reduction_rfold : binop_reduction_path_t := 4

/-- left operand is neutral element -/
def binop_reduction_lneutral : binop_reduction_path_t := 5

/-- right operand is neutral element -/
def binop_reduction_rneutral : binop_reduction_path_t := 6

/-- both operands have common form which can be factored over op -/
def binop_reduction_factor : binop_reduction_path_t := 7

/-- The eight reduction path tags declared in binary.hpp, in declaration
order. -/
def binop_reduction_paths : List binop_reduction_path_t :=
  [binop_reduction_none, binop_reduction_constants, binop_reduction_merge,
   binop_reduction_lfold, binop_reduction_rfold, binop_reduction_lneutral,
   binop_reduction_rneutral, binop_reduction_factor]

/-- The seven tags other than `binop_reduction_none`: the paths
`reduce_operand_pair` may be called with. -/
def binop_reducible_paths : List binop_reduction_path_t :=
  [binop_reduction_constants, binop_reduction_merge,
   binop_reduction_lfold, binop_reduction_rfold, binop_reduction_lneutral,
   binop_reduction_rneutral, binop_reduction_factor]

/-- `enum class binary_op::flags { none = 0, associative = 1, commutative = 2 }`,
represented as the underlying int bitmask (the header combines them with
bitwise `|` and `&`). -/
def binary_op_flags_none : Nat := 0

/-- associative flag bit -/
def binary_op_flags_associative : Nat := 1

/-- commutative flag bit -/
def binary_op_flags_commutative : Nat := 2

/-- A binary operator: the data of the abstract class `binary_op` that the
claims depend on.  `flags` is the bitmask returned by the virtual `flags()`;
`can_reduce_operand_pair` is the virtual reduction query, with operand
output ports abstracted to identifiers. -/
structure binary_op where
  flags : Nat
  can_reduce_operand_pair : Nat → Nat → binop_reduction_path_t

/-- `binary_op::is_associative`: `static_cast<int>(flags() & flags::associative)`
converted to bool, i.e. the masked value is nonzero. -/
def binary_op.is_associative (op : binary_op) : Bool :=
  (op.flags &&& binary_op_flags_associative) != 0

/-- `binary_op::is_commutative`: nonzero test of `flags() & flags::commutative`. -/
def binary_op.is_commutative (op : binary_op) : Bool :=
  (op.flags &&& binary_op_flags_commutative) != 0

/-- Modelled from the spec: concrete binary operator classes (bitstring
arithmetic etc.) are not in the sources; section 4.5.2 states
`op.can_reduce_operand_pair(a, b) -> path` returns one of
`none | constants | merge | lfold | rfold | lneutral | rneutral | factor`.
An operator honours that contract when every query lands in the declared
tag list. -/
def binary_op.RespectsReductionPaths (op : binary_op) : Prop :=
  ∀ a b, op.can_reduce_operand_pair a b ∈ binop_reduction_paths

/-- `flattened_binary_op`: a virtual n-ary node wrapping a binary operator
(`op_`) applied to `narguments` operands. -/
structure flattened_binary_op where
  op_ : binary_op
  narguments : Nat

/-- Both constructors of `flattened_binary_op` execute
`JLM_ASSERT(op_->is_associative());` a non-associative operator is an
assertion-class failure, which the spec's taxonomy files under
`UnreducibleOperator` (associative-only construct given a non-associative
operator). -/
def flattened_binary_op.create (op : binary_op) (narguments : Nat) :
    Except ErrorKind flattened_binary_op :=
  if op.is_associative then
    Except.ok { op_ := op, narguments := narguments }
  else
    Except.error ErrorKind.UnreducibleOperator

/-- Accessor `flattened_binary_op::bin_operation()`. -/
def flattened_binary_op.bin_operation (fb : flattened_binary_op) : binary_op :=
  fb.op_

/-- The normal form toggles of `binary_normal_form` (binary.hpp lines 44-94):
five rewrite flags with getters `get_reducible`, `get_reorder`,
`get_flatten`, `get_distribute`, `get_factorize`. -/
structure binary_normal_form where
  enable_reducible_ : Bool
  enable_reorder_ : Bool
  enable_flatten_ : Bool
  enable_distribute_ : Bool
  enable_factorize_ : Bool
deriving DecidableEq, Repr

/-- Modelled from the spec: the constructor `binary_normal_form::binary_normal_form`
lives in binary.cpp, which is not among the sources; section 4.5 states
"A normal form exposes toggles (all default-on)", so a freshly constructed
binary normal form has every rewrite flag enabled. -/
def binary_normal_form.create : binary_normal_form :=
  { enable_reducible_ := true
    enable_reorder_ := true
    enable_flatten_ := true
    enable_distribute_ := true
    enable_factorize_ := true }

/-- `get_reducible` -/
def binary_normal_form.get_reducible (nf : binary_normal_form) : Bool :=
  nf.enable_reducible_

/-- `get_reorder` -/
def binary_normal_form.get_reorder (nf : binary_normal_form) : Bool :=
  nf.enable_reorder_

/-- `get_flatten` -/
def binary_normal_form.get_flatten (nf : binary_normal_form) : Bool :=
  nf.enable_flatten_

/-- `get_distribute` -/
def binary_normal_form.get_distribute (nf : binary_normal_form) : Bool :=
  nf.enable_distribute_

/-- `get_factorize` -/
def binary_normal_form.get_factorize (nf : binary_normal_form) : Bool :=
  nf.enable_factorize_

end rvsdg

end jlm

namespace jlm.rvsdg

/-- C1: every successfully constructed `flattened_binary_op` wraps an
associative binary operator: construction checks `is_associative()` and a
non-associative operator is rejected with the assertion-class error kind
`UnreducibleOperator`, so the invariant holds for every instance over its
whole (immutable) lifetime. -/
theorem flattened_binary_op_wraps_associative (op : binary_op) (n : Nat) :
    (∀ fb : flattened_binary_op,
        flattened_binary_op.create op n = Except.ok fb →
        fb.op_.is_associative = true ∧ fb.bin_operation.is_associative = true) ∧
    (op.is_associative = false →
        flattened_binary_op.create op n = Except.error ErrorKind.UnreducibleOperator) := by
  constructor
  · intro fb hok
    unfold flattened_binary_op.create at hok
    by_cases h : op.is_associative
    · simp [h] at hok
      subst hok
      exact ⟨h, h⟩
    · simp [h] at hok
  · intro h
    unfold flattened_binary_op.create
    simp [h]

/-- Witness for C1: a concrete associative operator (flags bit 1 set) is
accepted by the constructor and the wrapped operator is associative. -/
theorem flattened_binary_op_wraps_associative_witness :
    ({ op_ := { flags := 1, can_reduce_operand_pair := fun _ _ => 0 },
       narguments := 3 } : flattened_binary_op).op_.is_associative = true ∧
    flattened_binary_op.create
        { flags := 2, can_reduce_operand_pair := fun _ _ => 0 } 3 =
      Except.error ErrorKind.UnreducibleOperator := by
  refine ⟨?_, ?_⟩
  · exact ((flattened_binary_op_wraps_associative
      { flags := 1, can_reduce_operand_pair := fun _ _ => 0 } 3).1 _ rfl).1
  · exact (flattened_binary_op_wraps_associative
      { flags := 2, can_reduce_operand_pair := fun _ _ => 0 } 3).2 rfl

/-- C3: the reduction path tags are exactly the eight declared in
binary.hpp, pairwise distinct, with `none` equal to 0, and for an operator
honouring the spec contract the test `path ≠ none` separates the
no-reduction case from the seven reducible paths. -/
theorem binop_reduction_paths_distinct_and_complete
    (op : binary_op) (hop : op.RespectsReductionPaths) (a b : Nat) :
    binop_reduction_paths.length = 8 ∧
    binop_reduction_paths.Nodup ∧
    binop_reduction_none = 0 ∧
    op.can_reduce_operand_pair a b ∈ binop_reduction_paths ∧
    (op.can_reduce_operand_pair a b ≠ binop_reduction_none ↔
      op.can_reduce_operand_pair a b ∈ binop_reducible_paths) := by
  refine ⟨by decide, by decide, rfl, hop a b, ?_⟩
  have hmem := hop a b
  simp only [binop_reduction_paths, List.mem_cons, List.not_mem_nil,
    or_false] at hmem
  rcases hmem with h | h | h | h | h | h | h | h <;> rw [h] <;> decide

/-- Witness for C3: a concrete operator always answering `lfold` honours
the contract, and the separation holds for it at operands 0, 1. -/
theorem binop_reduction_paths_distinct_and_complete_witness :
    binop_reduction_paths.length = 8 ∧
    binop_reduction_paths.Nodup ∧
    binop_reduction_none = 0 ∧
    ({ flags := 0, can_reduce_operand_pair := fun _ _ => binop_reduction_lfold }
        : binary_op).can_reduce_operand_pair 0 1 ∈ binop_reduction_paths ∧
    (({ flags := 0, can_reduce_operand_pair := fun _ _ => binop_reduction_lfold }
        : binary_op).can_reduce_operand_pair 0 1 ≠ binop_reduction_none ↔
      ({ flags := 0, can_reduce_operand_pair := fun _ _ => binop_reduction_lfold }
        : binary_op).can_reduce_operand_pair 0 1 ∈ binop_reducible_paths) :=
  binop_reduction_paths_distinct_and_complete
    { flags := 0, can_reduce_operand_pair := fun _ _ => binop_reduction_lfold }
    (by
      intro a b
      show binop_reduction_lfold ∈ binop_reduction_paths
      decide) 0 1

/-- C4: a freshly constructed binary normal form has every rewrite toggle
enabled: `get_reducible`, `get_reorder`, `get_flatten`, `get_distribute`
and `get_factorize` all return true. -/
theorem binary_normal_form_defaults_all_enabled :
    binary_normal_form.create.get_reducible = true ∧
    binary_normal_form.create.get_reorder = true ∧
    binary_normal_form.create.get_flatten = true ∧
    binary_normal_form.create.get_distribute = true ∧
    binary_normal_form.create.get_factorize = true := by
  refine ⟨rfl, rfl, rfl, rfl, rfl⟩

end jlm.rvsdg

namespace jlm.llvm

/-- Modelled from the spec: the definition of `enum class fpsize` is not in
the sources (only its use sites are); the type hierarchy lists
`Float(size ∈ \x7bhalf, f32, f64, x86fp80, f128\x7d)`, so the type has exactly
these five values (`flt` and `dbl` are the source's names for f32 and f64). -/
inductive fpsize where
  | half
  | flt
  | dbl
  | x86fp80
  | fp128
deriving DecidableEq, Repr, Fintype

/-- The eleven linkage kinds, with the names used throughout the sources.
Modelled from the spec: the definition of `enum class jlm::linkage` is not
in the sources (only its use sites are); the spec lists external, internal,
private, weak, link-once, common, appending, available-externally,
external-weak and the odr variants of weak and link-once. -/
inductive linkage where
  | external_linkage
  | available_externally_linkage
  | link_once_any_linkage
  | link_once_odr_linkage
  | weak_any_linkage
  | weak_odr_linkage
  | appending_linkage
  | internal_linkage
  | private_linkage
  | external_weak_linkage
  | common_linkage
deriving DecidableEq, Repr, Fintype

/-- The LLVM `GlobalValue::LinkageTypes` values that `convert_linkage`
targets (an enum of the external LLVM library; its values are pairwise
distinct by definition of a C++ enum). -/
inductive GlobalValueLinkageTypes where
  | ExternalLinkage
  | AvailableExternallyLinkage
  | LinkOnceAnyLinkage
  | LinkOnceODRLinkage
  | WeakAnyLinkage
  | WeakODRLinkage
  | AppendingLinkage
  | InternalLinkage
  | PrivateLinkage
  | ExternalWeakLinkage
  | CommonLinkage
deriving DecidableEq, Repr, Fintype

end jlm.llvm

namespace jlm.mlir

open jlm.llvm

/-- `MlirToJlmConverter::ConvertFPSize` (MlirToJlmConverter.cpp lines
617-637): switch on the bit width; any width other than 16/32/64/80/128
runs into `JLM_UNREACHABLE`, modelled as `none`. -/
def ConvertFPSize (size : Nat) : Option fpsize :=
  if size = 16 then some fpsize.half
  else if size = 32 then some fpsize.flt
  else if size = 64 then some fpsize.dbl
  else if size = 80 then some fpsize.x86fp80
  else if size = 128 then some fpsize.fp128
  else none

/-- `MlirToJlmConverter::ConvertLinkage` (MlirToJlmConverter.cpp lines
639-688): an if-chain of string comparisons in source order; an
unrecognized string runs into `JLM_UNREACHABLE`, modelled as `none`. -/
def ConvertLinkage (stringValue : String) : Option linkage :=
  if stringValue = "external_linkage" then some linkage.external_linkage
  else if stringValue = "available_externally_linkage" then
    some linkage.available_externally_linkage
  else if stringValue = "link_once_any_linkage" then some linkage.link_once_any_linkage
  else if stringValue = "link_once_odr_linkage" then some linkage.link_once_odr_linkage
  else if stringValue = "weak_any_linkage" then some linkage.weak_any_linkage
  else if stringValue = "weak_odr_linkage" then some linkage.weak_odr_linkage
  else if stringValue = "appending_linkage" then some linkage.appending_linkage
  else if stringValue = "internal_linkage" then some linkage.internal_linkage
  else if stringValue = "private_linkage" then some linkage.private_linkage
  else if stringValue = "external_weak_linkage" then some linkage.external_weak_linkage
  else if stringValue = "common_linkage" then some linkage.common_linkage
  else none

/-- The string each linkage value is named by in the MLIR attribute (the
inverse reading of the if-chain of `ConvertLinkage`). -/
def linkage_string : linkage → String
  | linkage.external_linkage => "external_linkage"
  | linkage.available_externally_linkage => "available_externally_linkage"
  | linkage.link_once_any_linkage => "link_once_any_linkage"
  | linkage.link_once_odr_linkage => "link_once_odr_linkage"
  | linkage.weak_any_linkage => "weak_any_linkage"
  | linkage.weak_odr_linkage => "weak_odr_linkage"
  | linkage.appending_linkage => "appending_linkage"
  | linkage.internal_linkage => "internal_linkage"
  | linkage.private_linkage => "private_linkage"
  | linkage.external_weak_linkage => "external_weak_linkage"
  | linkage.common_linkage => "common_linkage"

/-- The eleven linkage name strings accepted by `ConvertLinkage`, in
source order. -/
def linkage_strings : List String :=
  ["external_linkage", "available_externally_linkage", "link_once_any_linkage",
   "link_once_odr_linkage", "weak_any_linkage", "weak_odr_linkage",
   "appending_linkage", "internal_linkage", "private_linkage",
   "external_weak_linkage", "common_linkage"]

end jlm.mlir

namespace jlm.jlm2llvm

open jlm.llvm

/-- `convert_linkage` (jlm2llvm.cpp lines 215-234): the static map from
jlm linkage values to LLVM `GlobalValue::LinkageTypes`. -/
def convert_linkage : linkage → GlobalValueLinkageTypes
  | linkage.external_linkage => GlobalValueLinkageTypes.ExternalLinkage
  | linkage.available_externally_linkage =>
      GlobalValueLinkageTypes.AvailableExternallyLinkage
  | linkage.link_once_any_linkage => GlobalValueLinkageTypes.LinkOnceAnyLinkage
  | linkage.link_once_odr_linkage => GlobalValueLinkageTypes.LinkOnceODRLinkage
  | linkage.weak_any_linkage => GlobalValueLinkageTypes.WeakAnyLinkage
  | linkage.weak_odr_linkage => GlobalValueLinkageTypes.WeakODRLinkage
  | linkage.appending_linkage => GlobalValueLinkageTypes.AppendingLinkage
  | linkage.internal_linkage => GlobalValueLinkageTypes.InternalLinkage
  | linkage.private_linkage => GlobalValueLinkageTypes.PrivateLinkage
  | linkage.external_weak_linkage => GlobalValueLinkageTypes.ExternalWeakLinkage
  | linkage.common_linkage => GlobalValueLinkageTypes.CommonLinkage

end jlm.jlm2llvm

namespace jlm.mlir

open jlm.llvm

set_option maxHeartbeats 1600000 in
/-- C7: the linkage attribute has exactly eleven kinds; `ConvertLinkage`
maps each of the eleven linkage name strings to a distinct jlm linkage
value (every value is hit by exactly its own name string, and a success
determines the input string) and fails on any other string; and
`convert_linkage` of the jlm2llvm backend maps the eleven jlm linkage
values to pairwise distinct LLVM linkage types. -/
theorem linkage_conversions_total_and_injective :
    (Finset.univ : Finset linkage).card = 11 ∧
    linkage_strings.length = 11 ∧
    (∀ l : linkage, ConvertLinkage (linkage_string l) = some l) ∧
    (∀ (s : String) (l : linkage), ConvertLinkage s = some l → s = linkage_string l) ∧
    (∀ s : String, s ∉ linkage_strings → ConvertLinkage s = none) ∧
    (∀ l1 l2 : linkage,
      jlm.jlm2llvm.convert_linkage l1 = jlm.jlm2llvm.convert_linkage l2 →
        l1 = l2) := by
  refine ⟨by decide, by decide, ?_, ?_, ?_, by decide⟩
  · intro l
    cases l <;> rfl
  · intro s l h
    unfold ConvertLinkage at h
    split_ifs at h with h1 h2 h3 h4 h5 h6 h7 h8 h9 h10 h11
    case _ => cases h; exact h1
    case _ => cases h; exact h2
    case _ => cases h; exact h3
    case _ => cases h; exact h4
    case _ => cases h; exact h5
    case _ => cases h; exact h6
    case _ => cases h; exact h7
    case _ => cases h; exact h8
    case _ => cases h; exact h9
    case _ => cases h; exact h10
    case _ => cases h; exact h11
  · intro s hs
    simp only [linkage_strings, List.mem_cons, List.not_mem_nil, or_false,
      not_or] at hs
    obtain ⟨n1, n2, n3, n4, n5, n6, n7, n8, n9, n10, n11⟩ := hs
    unfold ConvertLinkage
    split_ifs
    rfl

/-- Witness for C7: the round trip at `common_linkage`, failure at a
string outside the eleven, and injectivity applied at equal images. -/
theorem linkage_conversions_total_and_injective_witness :
    ConvertLinkage "common_linkage" = some linkage.common_linkage ∧
    ConvertLinkage "static_linkage" = none ∧
    linkage.weak_odr_linkage = linkage.weak_odr_linkage := by
  refine ⟨?_, ?_, ?_⟩
  · exact linkage_conversions_total_and_injective.2.2.1 linkage.common_linkage
  · exact linkage_conversions_total_and_injective.2.2.2.2.1 "static_linkage"
      (by decide)
  · exact linkage_conversions_total_and_injective.2.2.2.2.2
      linkage.weak_odr_linkage linkage.weak_odr_linkage rfl

/-- C8: `ConvertFPSize` succeeds exactly on the widths 16, 32, 64, 80 and
128, returning half, flt, dbl, x86fp80 and fp128 respectively, hits the
unreachable error path on every other width, and every one of the exactly
five floating-point sizes is reached. -/
theorem ConvertFPSize_exactly_five_sizes :
    (Finset.univ : Finset fpsize).card = 5 ∧
    ConvertFPSize 16 = some fpsize.half ∧
    ConvertFPSize 32 = some fpsize.flt ∧
    ConvertFPSize 64 = some fpsize.dbl ∧
    ConvertFPSize 80 = some fpsize.x86fp80 ∧
    ConvertFPSize 128 = some fpsize.fp128 ∧
    (∀ size : Nat,
      (ConvertFPSize size).isSome ↔
        size = 16 ∨ size = 32 ∨ size = 64 ∨ size = 80 ∨ size = 128) ∧
    (∀ f : fpsize, ∃ size, ConvertFPSize size = some f) := by
  refine ⟨by decide, rfl, rfl, rfl, rfl, rfl, ?_, ?_⟩
  · intro size
    unfold ConvertFPSize
    split_ifs <;> simp_all
  · intro f
    cases f
    exacts [⟨16, rfl⟩, ⟨32, rfl⟩, ⟨64, rfl⟩, ⟨80, rfl⟩, ⟨128, rfl⟩]

/-- Witness for C8: width 48 is rejected, width 80 returns x86fp80. -/
theorem ConvertFPSize_exactly_five_sizes_witness :
    ((ConvertFPSize 48).isSome ↔
      (48 : Nat) = 16 ∨ (48 : Nat) = 32 ∨ (48 : Nat) = 64 ∨
        (48 : Nat) = 80 ∨ (48 : Nat) = 128) ∧
    ConvertFPSize 80 = some fpsize.x86fp80 :=
  ⟨ConvertFPSize_exactly_five_sizes.2.2.2.2.2.2.1 48,
   ConvertFPSize_exactly_five_sizes.2.2.2.2.1⟩

/-- The MLIR arith operation kinds tested by the dyn_cast chain of
`ConvertBitBinaryNode`; `other` stands for every operation of none of
these kinds (for which every dyn_cast fails). -/
inductive MlirArithOpKind where
  | AddIOp
  | AndIOp
  | ShRUIOp
  | MulIOp
  | OrIOp
  | DivSIOp
  | ShLIOp
  | RemSIOp
  | SubIOp
  | DivUIOp
  | RemUIOp
  | XOrIOp
  | other
deriving DecidableEq, Repr, Fintype

/-- The jlm bitstring binary operators produced by `ConvertBitBinaryNode`. -/
inductive BitBinaryOpKind where
  | bitadd_op
  | bitand_op
  | bitashr_op
  | bitmul_op
  | bitor_op
  | bitsdiv_op
  | bitshl_op
  | bitshr_op
  | bitsmod_op
  | bitsub_op
  | bitudiv_op
  | bitumod_op
  | bitxor_op
deriving DecidableEq, Repr, Fintype

/-- `MlirToJlmConverter::ConvertBitBinaryNode` (MlirToJlmConverter.cpp
lines 209-309): rejects operand lists of size other than two, then runs
the dyn_cast chain in source order.  A dyn_cast succeeds exactly when the
operation has the tested kind, so the chain is first-match; the test for
`arith::ShRUIOp` appears twice, first producing `bitashr_op` (line 232)
and later producing `bitshr_op` (line 267). -/
def ConvertBitBinaryNode (op : MlirArithOpKind) (ninputs : Nat) :
    Option BitBinaryOpKind :=
  if ninputs ≠ 2 then none
  else if op = MlirArithOpKind.AddIOp then some BitBinaryOpKind.bitadd_op
  else if op = MlirArithOpKind.AndIOp then some BitBinaryOpKind.bitand_op
  else if op = MlirArithOpKind.ShRUIOp then some BitBinaryOpKind.bitashr_op
  else if op = MlirArithOpKind.MulIOp then some BitBinaryOpKind.bitmul_op
  else if op = MlirArithOpKind.OrIOp then some BitBinaryOpKind.bitor_op
  else if op = MlirArithOpKind.DivSIOp then some BitBinaryOpKind.bitsdiv_op
  else if op = MlirArithOpKind.ShLIOp then some BitBinaryOpKind.bitshl_op
  else if op = MlirArithOpKind.ShRUIOp then some BitBinaryOpKind.bitshr_op
  else if op = MlirArithOpKind.RemSIOp then some BitBinaryOpKind.bitsmod_op
  else if op = MlirArithOpKind.SubIOp then some BitBinaryOpKind.bitsub_op
  else if op = MlirArithOpKind.DivUIOp then some BitBinaryOpKind.bitudiv_op
  else if op = MlirArithOpKind.RemUIOp then some BitBinaryOpKind.bitumod_op
  else if op = MlirArithOpKind.XOrIOp then some BitBinaryOpKind.bitxor_op
  else none

/-- C10: an MLIR unsigned shift-right (`arith::ShRUIOp`) with two
converted inputs is converted to the arithmetic shift-right operator
`bitashr_op` by the first matching branch, and the later branch mapping
`ShRUIOp` to the logical shift-right operator `bitshr_op` is unreachable:
no input at all makes `ConvertBitBinaryNode` produce `bitshr_op`. -/
theorem ConvertBitBinaryNode_shrui_is_ashr (op : MlirArithOpKind) (n : Nat) :
    ConvertBitBinaryNode MlirArithOpKind.ShRUIOp 2 =
      some BitBinaryOpKind.bitashr_op ∧
    ConvertBitBinaryNode op n ≠ some BitBinaryOpKind.bitshr_op := by
  refine ⟨rfl, ?_⟩
  unfold ConvertBitBinaryNode
  cases op <;> split_ifs <;> simp_all

/-- Witness for C10: no 2-operand `SubIOp` (nor any other concrete case)
yields `bitshr_op`. -/
theorem ConvertBitBinaryNode_shrui_is_ashr_witness :
    ConvertBitBinaryNode MlirArithOpKind.ShRUIOp 2 =
      some BitBinaryOpKind.bitashr_op ∧
    ConvertBitBinaryNode MlirArithOpKind.SubIOp 2 ≠
      some BitBinaryOpKind.bitshr_op :=
  ⟨(ConvertBitBinaryNode_shrui_is_ashr MlirArithOpKind.SubIOp 2).1,
   (ConvertBitBinaryNode_shrui_is_ashr MlirArithOpKind.SubIOp 2).2⟩

end jlm.mlir

namespace jlm.cfg

/-- A CFG edge: source node, sink node, and the mutable `index_` slot.
`eid` models the identity of the heap-allocated `cfg_edge` object (its
address): it is what the sink's in-edge container stores. -/
structure cfg_edge where
  source_ : Nat
  sink_ : Nat
  index_ : Nat
  eid : Nat
deriving DecidableEq, Repr

/-- The out-edge interface data of a `cfg_node` as defined in
include/jlm/ir/cfg_node.hpp: `std::vector<std::unique_ptr<cfg_edge>> outedges_`
and `std::list<cfg_edge*> inedges_` (edge identities in push_back order). -/
structure cfg_node_list where
  outedges_ : List cfg_edge
  inedges_ : List Nat
deriving DecidableEq, Repr

/-- The out-edge interface data of a `cfg_node` as defined in
include/jlm/jlm/ir/cfg-node.hpp: the same out-edge vector but
`std::unordered_set<cfg_edge*> inedges_` (an unordered collection of edge
identities). -/
structure cfg_node_set where
  outedges_ : List cfg_edge
  inedges_ : Finset Nat
deriving DecidableEq

/-- A CFG over the list-inedge node definition: nodes are identified by
naturals; `counter` supplies fresh edge identities (fresh addresses). -/
structure GraphL where
  node : Nat → cfg_node_list
  counter : Nat

/-- A CFG over the set-inedge node definition. -/
structure GraphS where
  node : Nat → cfg_node_set
  counter : Nat

/-- Update a single node of a list-inedge graph. -/
def GraphL.update (g : GraphL) (v : Nat) (f : cfg_node_list → cfg_node_list) :
    GraphL :=
  { g with node := fun w => if w = v then f (g.node w) else g.node w }

/-- Update a single node of a set-inedge graph. -/
def GraphS.update (g : GraphS) (v : Nat) (f : cfg_node_set → cfg_node_set) :
    GraphS :=
  { g with node := fun w => if w = v then f (g.node w) else g.node w }

/-- `noutedges()` -/
def GraphL.noutedges (g : GraphL) (v : Nat) : Nat :=
  (g.node v).outedges_.length

/-- `ninedges()` for the list version: size of the `std::list`. -/
def GraphL.ninedges (g : GraphL) (v : Nat) : Nat :=
  (g.node v).inedges_.length

/-- `outedge(n)` (returns `none` where the source asserts `n < noutedges()`). -/
def GraphL.outedge (g : GraphL) (v : Nat) (n : Nat) : Option cfg_edge :=
  (g.node v).outedges_[n]?

/-- `noutedges()` -/
def GraphS.noutedges (g : GraphS) (v : Nat) : Nat :=
  (g.node v).outedges_.length

/-- `ninedges()` for the set version: size of the `std::unordered_set`. -/
def GraphS.ninedges (g : GraphS) (v : Nat) : Nat :=
  (g.node v).inedges_.card

/-- `outedge(n)` -/
def GraphS.outedge (g : GraphS) (v : Nat) (n : Nat) : Option cfg_edge :=
  (g.node v).outedges_[n]?

/-- `cfg_node::add_outedge` of the list version (cfg_node.hpp lines
140-146): push a fresh edge with index `noutedges()` onto the source's
out-edge vector, then push its identity onto the sink's in-edge list. -/
def GraphL.add_outedge (g : GraphL) (source sink : Nat) : GraphL :=
  let e : cfg_edge :=
    { source_ := source, sink_ := sink, index_ := g.noutedges source,
      eid := g.counter }
  let g1 := g.update source fun nd => { nd with outedges_ := nd.outedges_ ++ [e] }
  let g2 := g1.update sink fun nd => { nd with inedges_ := nd.inedges_ ++ [e.eid] }
  { g2 with counter := g.counter + 1 }

/-- The shift performed by `cfg_node::remove_outedge`'s loop and the final
`resize`: edges before `n` stay, edges after `n` move down one slot with
their `index_` decremented. -/
def remove_shift (es : List cfg_edge) (n : Nat) : List cfg_edge :=
  es.take n ++ (es.drop (n + 1)).map fun e => { e with index_ := e.index_ - 1 }

/-- `cfg_node::remove_outedge` of the list version (cfg_node.hpp lines
148-160): guarded by `JLM_DEBUG_ASSERT(n < noutedges())` (modelled as a
no-op otherwise); removes the edge's identity from the sink's in-edge list
(`std::list::remove` erases every equal element), then shifts the
out-edge vector. -/
def GraphL.remove_outedge (g : GraphL) (v : Nat) (n : Nat) : GraphL :=
  match (g.node v).outedges_[n]? with
  | none => g
  | some e =>
    let g1 := g.update e.sink_ fun nd =>
      { nd with inedges_ := nd.inedges_.filter fun id => id ≠ e.eid }
    g1.update v fun nd => { nd with outedges_ := remove_shift nd.outedges_ n }

/-- `cfg_node::add_outedge` of the set version (cfg-node.hpp lines
118-124): identical out-edge handling; the sink's in-edge container is an
`unordered_set`, so the identity is inserted. -/
def GraphS.add_outedge (g : GraphS) (source sink : Nat) : GraphS :=
  let e : cfg_edge :=
    { source_ := source, sink_ := sink, index_ := g.noutedges source,
      eid := g.counter }
  let g1 := g.update source fun nd => { nd with outedges_ := nd.outedges_ ++ [e] }
  let g2 := g1.update sink fun nd => { nd with inedges_ := insert e.eid nd.inedges_ }
  { g2 with counter := g.counter + 1 }

/-- `cfg_node::remove_outedge` of the set version (cfg-node.hpp lines
126-138): identical out-edge handling; the sink's in-edge container is an
`unordered_set`, so the identity is erased. -/
def GraphS.remove_outedge (g : GraphS) (v : Nat) (n : Nat) : GraphS :=
  match (g.node v).outedges_[n]? with
  | none => g
  | some e =>
    let g1 := g.update e.sink_ fun nd =>
      { nd with inedges_ := nd.inedges_.erase e.eid }
    g1.update v fun nd => { nd with outedges_ := remove_shift nd.outedges_ n }

/-- One operation of the out-edge interface. -/
inductive CfgOp where
  | add (source sink : Nat)
  | remove (source : Nat) (n : Nat)
deriving DecidableEq, Repr

/-- Apply one operation to a list-inedge graph. -/
def GraphL.apply (g : GraphL) : CfgOp → GraphL
  | CfgOp.add source sink => g.add_outedge source sink
  | CfgOp.remove source n => g.remove_outedge source n

/-- Apply one operation to a set-inedge graph. -/
def GraphS.apply (g : GraphS) : CfgOp → GraphS
  | CfgOp.add source sink => g.add_outedge source sink
  | CfgOp.remove source n => g.remove_outedge source n

/-- Run a sequence of operations on a list-inedge graph. -/
def GraphL.run (g : GraphL) (ops : List CfgOp) : GraphL :=
  ops.foldl GraphL.apply g

/-- Run a sequence of operations on a set-inedge graph. -/
def GraphS.run (g : GraphS) (ops : List CfgOp) : GraphS :=
  ops.foldl GraphS.apply g

/-- The empty list-inedge graph: every node starts with no edges. -/
def GraphL.init : GraphL :=
  { node := fun _ => { outedges_ := [], inedges_ := [] }, counter := 0 }

/-- The empty set-inedge graph. -/
def GraphS.init : GraphS :=
  { node := fun _ => { outedges_ := [], inedges_ := ∅ }, counter := 0 }

/-- The observable data of an out-edge: the (source, sink, index) triple. -/
def cfg_edge.triple (e : cfg_edge) : Nat × Nat × Nat :=
  (e.source_, e.sink_, e.index_)

/-- Reading a node of an updated list-inedge graph. -/
theorem GraphL.update_node_list (g : GraphL) (v : Nat)
    (f : cfg_node_list → cfg_node_list) (w : Nat) :
    (g.update v f).node w = if w = v then f (g.node w) else g.node w := rfl

/-- Reading a node of an updated set-inedge graph. -/
theorem GraphS.update_node_set (g : GraphS) (v : Nat)
    (f : cfg_node_set → cfg_node_set) (w : Nat) :
    (g.update v f).node w = if w = v then f (g.node w) else g.node w := rfl

/-- Effect of `add_outedge` on a node of the list-inedge graph. -/
theorem GraphL.add_outedge_node_list (g : GraphL) (s t w : Nat) :
    ((g.add_outedge s t).node w).outedges_ =
      (if w = s then (g.node w).outedges_ ++
        [{ source_ := s, sink_ := t, index_ := (g.node s).outedges_.length,
           eid := g.counter }]
       else (g.node w).outedges_) ∧
    ((g.add_outedge s t).node w).inedges_ =
      (if w = t then (g.node w).inedges_ ++ [g.counter]
       else (g.node w).inedges_) ∧
    (g.add_outedge s t).counter = g.counter + 1 := by
  unfold GraphL.add_outedge GraphL.update GraphL.noutedges
  by_cases h1 : w = t <;> by_cases h2 : w = s <;>
    simp [h1, h2] <;> split_ifs <;> simp_all

/-- Effect of `add_outedge` on a node of the set-inedge graph. -/
theorem GraphS.add_outedge_node_set (g : GraphS) (s t w : Nat) :
    ((g.add_outedge s t).node w).outedges_ =
      (if w = s then (g.node w).outedges_ ++
        [{ source_ := s, sink_ := t, index_ := (g.node s).outedges_.length,
           eid := g.counter }]
       else (g.node w).outedges_) ∧
    ((g.add_outedge s t).node w).inedges_ =
      (if w = t then insert g.counter (g.node w).inedges_
       else (g.node w).inedges_) ∧
    (g.add_outedge s t).counter = g.counter + 1 := by
  unfold GraphS.add_outedge GraphS.update GraphS.noutedges
  by_cases h1 : w = t <;> by_cases h2 : w = s <;>
    simp [h1, h2] <;> split_ifs <;> simp_all

/-- `remove_outedge` with an out-of-range index is the (asserted) no-op. -/
theorem GraphL.remove_outedge_none_list (g : GraphL) (v n : Nat)
    (h : (g.node v).outedges_[n]? = none) : g.remove_outedge v n = g := by
  unfold GraphL.remove_outedge
  rw [h]

/-- `remove_outedge` with an out-of-range index is the (asserted) no-op. -/
theorem GraphS.remove_outedge_none_set (g : GraphS) (v n : Nat)
    (h : (g.node v).outedges_[n]? = none) : g.remove_outedge v n = g := by
  unfold GraphS.remove_outedge
  rw [h]

/-- Effect of an in-range `remove_outedge` on a node of the list-inedge
graph. -/
theorem GraphL.remove_outedge_node_list (g : GraphL) (v n : Nat) (e : cfg_edge)
    (h : (g.node v).outedges_[n]? = some e) (w : Nat) :
    ((g.remove_outedge v n).node w).outedges_ =
      (if w = v then remove_shift ((g.node w).outedges_) n
       else (g.node w).outedges_) ∧
    ((g.remove_outedge v n).node w).inedges_ =
      (if w = e.sink_ then ((g.node w).inedges_).filter (fun id => id ≠ e.eid)
       else (g.node w).inedges_) ∧
    (g.remove_outedge v n).counter = g.counter := by
  unfold GraphL.remove_outedge GraphL.update
  rw [h]
  by_cases h1 : w = e.sink_ <;> by_cases h2 : w = v <;>
    simp [h1, h2] <;> split_ifs <;> simp_all

/-- Effect of an in-range `remove_outedge` on a node of the set-inedge
graph. -/
theorem GraphS.remove_outedge_node_set (g : GraphS) (v n : Nat) (e : cfg_edge)
    (h : (g.node v).outedges_[n]? = some e) (w : Nat) :
    ((g.remove_outedge v n).node w).outedges_ =
      (if w = v then remove_shift ((g.node w).outedges_) n
       else (g.node w).outedges_) ∧
    ((g.remove_outedge v n).node w).inedges_ =
      (if w = e.sink_ then ((g.node w).inedges_).erase e.eid
       else (g.node w).inedges_) ∧
    (g.remove_outedge v n).counter = g.counter := by
  unfold GraphS.remove_outedge GraphS.update
  rw [h]
  by_cases h1 : w = e.sink_ <;> by_cases h2 : w = v <;>
    simp [h1, h2] <;> split_ifs <;> simp_all

/-- Length of the shifted out-edge vector. -/
theorem remove_shift_length (es : List cfg_edge) (n : Nat) (hn : n < es.length) :
    (remove_shift es n).length = es.length - 1 := by
  unfold remove_shift
  simp [List.length_take, List.length_drop]
  omega

/-- Elementwise description of the shifted out-edge vector. -/
theorem remove_shift_getElem? (es : List cfg_edge) (n i : Nat)
    (hn : n < es.length) :
    (remove_shift es n)[i]? =
      if i < n then es[i]?
      else (es[i + 1]?).map fun e => { e with index_ := e.index_ - 1 } := by
  unfold remove_shift
  by_cases hi : i < n
  · rw [List.getElem?_append_left (by simp [List.length_take]; omega)]
    rw [List.getElem?_take_of_lt hi]
    simp [hi]
  · rw [List.getElem?_append_right (by simp [List.length_take]; omega)]
    rw [List.getElem?_map, List.getElem?_drop]
    have hlen : (es.take n).length = n := by simp [List.length_take]; omega
    have hidx : n + 1 + (i - (es.take n).length) = i + 1 := by rw [hlen]; omega
    rw [hidx]
    simp [hi]

/-- Invariant I6 for out-edges: the `index_` stored in the i-th slot of
every node's out-edge vector is i. -/
abbrev OutedgeIndicesContiguous (g : GraphL) : Prop :=
  ∀ (v i : Nat) (e : cfg_edge), (g.node v).outedges_[i]? = some e → e.index_ = i

/-- The empty graph satisfies the contiguity invariant. -/
theorem outedgeIndicesContiguous_init : OutedgeIndicesContiguous GraphL.init := by
  intro v i e h
  simp [GraphL.init] at h

/-- Both out-edge operations preserve the contiguity invariant. -/
theorem outedgeIndicesContiguous_apply (g : GraphL)
    (hg : OutedgeIndicesContiguous g) (op : CfgOp) :
    OutedgeIndicesContiguous (g.apply op) := by
  cases op with
  | add s t =>
    intro v i e h
    rw [GraphL.apply, (GraphL.add_outedge_node_list g s t v).1] at h
    by_cases hv : v = s
    · rw [if_pos hv] at h
      rcases Nat.lt_or_ge i (g.node v).outedges_.length with hlt | hge
      · rw [List.getElem?_append_left hlt] at h
        exact hg v i e h
      · rw [List.getElem?_append_right hge] at h
        have hi0 : i - (g.node v).outedges_.length = 0 ∧
            i = (g.node v).outedges_.length := by
          rcases List.getElem?_eq_some.mp h with ⟨hb, _⟩
          simp at hb
          omega
        rw [hi0.1] at h
        simp at h
        rw [← h]
        show (g.node s).outedges_.length = i
        rw [hi0.2, hv]
    · rw [if_neg hv] at h
      exact hg v i e h
  | remove s n =>
    intro v i e h
    rw [GraphL.apply] at h
    cases hm : (g.node s).outedges_[n]? with
    | none => rw [GraphL.remove_outedge_none_list g s n hm] at h; exact hg v i e h
    | some e0 =>
      rw [(GraphL.remove_outedge_node_list g s n e0 hm v).1] at h
      by_cases hv : v = s
      · rw [if_pos hv] at h
        have hn : n < (g.node v).outedges_.length := by
          rcases List.getElem?_eq_some.mp (hv ▸ hm) with ⟨hb, _⟩
          exact hb
        rw [remove_shift_getElem? _ _ _ hn] at h
        by_cases hi : i < n
        · rw [if_pos hi] at h
          exact hg v i e h
        · rw [if_neg hi] at h
          cases hm2 : (g.node v).outedges_[i + 1]? with
          | none => rw [hm2] at h; simp at h
          | some e1 =>
            rw [hm2] at h
            simp at h
            have := hg v (i + 1) e1 hm2
            rw [← h]
            simp [this]
      · rw [if_neg hv] at h
        exact hg v i e h

/-- Any run of out-edge operations from a graph satisfying the contiguity
invariant ends in a graph satisfying it. -/
theorem outedgeIndicesContiguous_run (g : GraphL)
    (hg : OutedgeIndicesContiguous g) (ops : List CfgOp) :
    OutedgeIndicesContiguous (g.run ops) := by
  induction ops generalizing g with
  | nil => exact hg
  | cons op ops ih =>
    exact ih (g.apply op) (outedgeIndicesContiguous_apply g hg op)

/-- C5: after any sequence of `add_outedge` and `remove_outedge` calls,
every node's out-edge indices are contiguous from zero
(`outedge(i).index() = i` for every i < `noutedges()`); and an in-range
`remove_outedge(n)` removes the n-th edge, keeps the earlier edges
untouched, shifts each later edge down one slot with its index decremented
by one, and decreases `noutedges()` by exactly one. -/
theorem cfg_node_outedge_indices_contiguous
    (ops : List CfgOp) (v n i : Nat) (e : cfg_edge) :
    ((GraphL.init.run ops).outedge v i = some e → e.index_ = i) ∧
    (n < (GraphL.init.run ops).noutedges v →
      ((GraphL.init.run ops).remove_outedge v n).noutedges v =
          (GraphL.init.run ops).noutedges v - 1 ∧
      (i < n → ((GraphL.init.run ops).remove_outedge v n).outedge v i =
          (GraphL.init.run ops).outedge v i) ∧
      (n ≤ i → ((GraphL.init.run ops).remove_outedge v n).outedge v i =
          ((GraphL.init.run ops).outedge v (i + 1)).map
            fun e2 => { e2 with index_ := e2.index_ - 1 })) := by
  have hcontig :=
    outedgeIndicesContiguous_run GraphL.init outedgeIndicesContiguous_init ops
  set g := GraphL.init.run ops with hgdef
  constructor
  · intro h
    exact hcontig v i e h
  · intro hn
    have hnlen : n < (g.node v).outedges_.length := hn
    have hsome : ∃ e0, (g.node v).outedges_[n]? = some e0 := by
      cases hm : (g.node v).outedges_[n]? with
      | none =>
        have hle := List.getElem?_eq_none_iff.mp hm
        omega
      | some e0 => exact ⟨e0, rfl⟩
    obtain ⟨e0, hm⟩ := hsome
    have hrm := GraphL.remove_outedge_node_list g v n e0 hm v
    refine ⟨?_, ?_, ?_⟩
    · show ((g.remove_outedge v n).node v).outedges_.length =
        (g.node v).outedges_.length - 1
      rw [hrm.1, if_pos rfl, remove_shift_length _ _ hnlen]
    · intro hi
      show ((g.remove_outedge v n).node v).outedges_[i]? =
        (g.node v).outedges_[i]?
      rw [hrm.1, if_pos rfl, remove_shift_getElem? _ _ _ hnlen, if_pos hi]
    · intro hi
      show ((g.remove_outedge v n).node v).outedges_[i]? =
        ((g.node v).outedges_[i + 1]?).map
          fun e2 => { e2 with index_ := e2.index_ - 1 }
      rw [hrm.1, if_pos rfl, remove_shift_getElem? _ _ _ hnlen,
        if_neg (Nat.not_lt.mpr hi)]

/-- Witness for C5: two edges out of node 0; removing edge 0 leaves one
edge, the former edge 1 shifted down with its index now 0. -/
theorem cfg_node_outedge_indices_contiguous_witness :
    ({ source_ := 0, sink_ := 1, index_ := 0, eid := 0 } : cfg_edge).index_ = 0 ∧
    ((GraphL.init.run [CfgOp.add 0 1, CfgOp.add 0 2]).remove_outedge 0 0).noutedges 0 =
        (GraphL.init.run [CfgOp.add 0 1, CfgOp.add 0 2]).noutedges 0 - 1 ∧
    ((GraphL.init.run [CfgOp.add 0 1, CfgOp.add 0 2]).remove_outedge 0 0).outedge 0 0 =
        ((GraphL.init.run [CfgOp.add 0 1, CfgOp.add 0 2]).outedge 0 1).map
          (fun e2 => { e2 with index_ := e2.index_ - 1 }) := by
  have T := cfg_node_outedge_indices_contiguous
    [CfgOp.add 0 1, CfgOp.add 0 2] 0 0 0
    { source_ := 0, sink_ := 1, index_ := 0, eid := 0 }
  have hn : 0 < (GraphL.init.run [CfgOp.add 0 1, CfgOp.add 0 2]).noutedges 0 := by
    decide
  exact ⟨T.1 (by decide), (T.2 hn).1, (T.2 hn).2.2 (Nat.le_refl 0)⟩

/-- Coupling between a run of the list-inedge node definition and a run of
the set-inedge one: counters agree, out-edge vectors agree exactly, and
each in-edge list is duplicate-free, bounded by the counter (edge
identities are addresses of live edges created so far) and carries the same
identities as the in-edge set. -/
abbrev NodesAgree (gL : GraphL) (gS : GraphS) : Prop :=
  gL.counter = gS.counter ∧
  ∀ v : Nat,
    (gL.node v).outedges_ = (gS.node v).outedges_ ∧
    (gL.node v).inedges_.Nodup ∧
    (∀ id ∈ (gL.node v).inedges_, id < gL.counter) ∧
    (gS.node v).inedges_ = (gL.node v).inedges_.toFinset

/-- The two empty graphs agree. -/
theorem nodesAgree_init : NodesAgree GraphL.init GraphS.init := by
  refine ⟨rfl, fun v => ⟨rfl, List.nodup_nil, ?_, rfl⟩⟩
  intro id h
  simp [GraphL.init] at h

/-- One out-edge operation applied to both definitions preserves the
coupling. -/
theorem nodesAgree_apply (gL : GraphL) (gS : GraphS)
    (hg : NodesAgree gL gS) (op : CfgOp) :
    NodesAgree (gL.apply op) (gS.apply op) := by
  obtain ⟨hc, hnode⟩ := hg
  cases op with
  | add s t =>
    have hLS : (gL.node s).outedges_.length = (gS.node s).outedges_.length := by
      rw [(hnode s).1]
    refine ⟨?_, fun v => ⟨?_, ?_, ?_, ?_⟩⟩
    · rw [GraphL.apply, GraphS.apply,
        (GraphL.add_outedge_node_list gL s t 0).2.2,
        (GraphS.add_outedge_node_set gS s t 0).2.2, hc]
    · rw [GraphL.apply, GraphS.apply,
        (GraphL.add_outedge_node_list gL s t v).1,
        (GraphS.add_outedge_node_set gS s t v).1, (hnode v).1, hLS, hc]
    · rw [GraphL.apply, (GraphL.add_outedge_node_list gL s t v).2.1]
      by_cases hv : v = t
      · rw [if_pos hv]
        have hfresh : gL.counter ∉ (gL.node v).inedges_ := by
          intro hmem
          exact absurd ((hnode v).2.2.1 _ hmem) (by omega)
        simp [List.nodup_append, (hnode v).2.1, hfresh]
      · rw [if_neg hv]
        exact (hnode v).2.1
    · rw [GraphL.apply, (GraphL.add_outedge_node_list gL s t v).2.1,
        (GraphL.add_outedge_node_list gL s t v).2.2]
      by_cases hv : v = t
      · rw [if_pos hv]
        intro id hmem
        rcases List.mem_append.mp hmem with h | h
        · have := (hnode v).2.2.1 _ h
          omega
        · simp at h
          omega
      · rw [if_neg hv]
        intro id hmem
        have := (hnode v).2.2.1 _ hmem
        omega
    · rw [GraphL.apply, GraphS.apply,
        (GraphL.add_outedge_node_list gL s t v).2.1,
        (GraphS.add_outedge_node_set gS s t v).2.1]
      by_cases hv : v = t
      · rw [if_pos hv, if_pos hv, (hnode v).2.2.2, hc]
        ext x
        simp [List.toFinset_append, or_comm]
      · rw [if_neg hv, if_neg hv]
        exact (hnode v).2.2.2
  | remove s n =>
    cases hm : (gL.node s).outedges_[n]? with
    | none =>
      have hmS : (gS.node s).outedges_[n]? = none := by rw [← (hnode s).1]; exact hm
      rw [GraphL.apply, GraphS.apply, GraphL.remove_outedge_none_list gL s n hm,
        GraphS.remove_outedge_none_set gS s n hmS]
      exact ⟨hc, hnode⟩
    | some e =>
      have hmS : (gS.node s).outedges_[n]? = some e := by rw [← (hnode s).1]; exact hm
      have hL := fun v => GraphL.remove_outedge_node_list gL s n e hm v
      have hS := fun v => GraphS.remove_outedge_node_set gS s n e hmS v
      refine ⟨?_, fun v => ⟨?_, ?_, ?_, ?_⟩⟩
      · rw [GraphL.apply, GraphS.apply, (hL 0).2.2, (hS 0).2.2, hc]
      · rw [GraphL.apply, GraphS.apply, (hL v).1, (hS v).1, (hnode v).1]
      · rw [GraphL.apply, (hL v).2.1]
        by_cases hv : v = e.sink_
        · rw [if_pos hv]
          exact (hnode v).2.1.filter _
        · rw [if_neg hv]
          exact (hnode v).2.1
      · rw [GraphL.apply, (hL v).2.1, (hL v).2.2]
        by_cases hv : v = e.sink_
        · rw [if_pos hv]
          intro id hmem
          exact (hnode v).2.2.1 _ (List.mem_of_mem_filter hmem)
        · rw [if_neg hv]
          exact (hnode v).2.2.1
      · rw [GraphL.apply, GraphS.apply, (hL v).2.1, (hS v).2.1]
        by_cases hv : v = e.sink_
        · rw [if_pos hv, if_pos hv, (hnode v).2.2.2]
          ext x
          simp [List.mem_filter, Finset.mem_erase, and_comm]
        · rw [if_neg hv, if_neg hv]
          exact (hnode v).2.2.2

/-- Runs of the same operation sequence on both definitions stay coupled. -/
theorem nodesAgree_run (gL : GraphL) (gS : GraphS) (hg : NodesAgree gL gS)
    (ops : List CfgOp) : NodesAgree (gL.run ops) (gS.run ops) := by
  induction ops generalizing gL gS with
  | nil => exact hg
  | cons op ops ih =>
    exact ih (gL.apply op) (gS.apply op) (nodesAgree_apply gL gS hg op)

/-- C9: the two coexisting CFG-node definitions are behaviourally
equivalent on the out-edge interface: after any sequence of `add_outedge`
and `remove_outedge` operations, every node has the same sequence of
(source, sink, index) out-edge triples in the same order, the same
`noutedges()` and the same `ninedges()` in both definitions. -/
theorem cfg_node_list_set_behaviorally_equivalent (ops : List CfgOp)
    (v i : Nat) :
    ((GraphL.init.run ops).node v).outedges_.map cfg_edge.triple =
      ((GraphS.init.run ops).node v).outedges_.map cfg_edge.triple ∧
    (GraphL.init.run ops).outedge v i = (GraphS.init.run ops).outedge v i ∧
    (GraphL.init.run ops).noutedges v = (GraphS.init.run ops).noutedges v ∧
    (GraphL.init.run ops).ninedges v = (GraphS.init.run ops).ninedges v := by
  have h := nodesAgree_run GraphL.init GraphS.init nodesAgree_init ops
  obtain ⟨_, hnode⟩ := h
  refine ⟨?_, ?_, ?_, ?_⟩
  · rw [(hnode v).1]
  · show ((GraphL.init.run ops).node v).outedges_[i]? =
      ((GraphS.init.run ops).node v).outedges_[i]?
    rw [(hnode v).1]
  · show ((GraphL.init.run ops).node v).outedges_.length =
      ((GraphS.init.run ops).node v).outedges_.length
    rw [(hnode v).1]
  · show ((GraphL.init.run ops).node v).inedges_.length =
      ((GraphS.init.run ops).node v).inedges_.card
    rw [(hnode v).2.2.2, List.toFinset_card_of_nodup (hnode v).2.1]

end jlm.cfg

namespace jlm.llvm.store

/-- A reference to an output port in the store-graph model: either a
graph import or the k-th memory-state output of the store node with the
given index (a store produces one state output per state operand).  Operand
equality is identity of the producing output, as for
`jlm::rvsdg::output *` in the sources. -/
inductive Ref where
  | imp (name : Nat)
  | nodeOut (node : Nat) (idx : Nat)
deriving DecidableEq, Repr

/-- A store node `StoreNode::Create(address, value, states, alignment)`:
input 0 is the address, input 1 the value, inputs 2.. the memory states. -/
structure StoreNode where
  address : Ref
  value : Ref
  states : List Ref
deriving DecidableEq, Repr

/-- `ninputs()` of a store node: address, value and one input per state. -/
def StoreNode.ninputs (nd : StoreNode) : Nat :=
  2 + nd.states.length

/-- The store normal form toggles these claims use.  Modelled from the
spec: `store_normal_form` itself (store.hpp/store.cpp) is not among the
sources, only its use in TestStore.cpp; section 4.5 lists its
`store_store_reducible` and `multiple_origin_reducible` toggles. -/
structure store_normal_form where
  store_store_reducible_ : Bool
  multiple_origin_reducible_ : Bool
deriving DecidableEq, Repr

/-- Modelled from the spec (reduction catalogue, store/store row: "same
address, same state, newer store dominates older — drop older store"): a
state operand that is the k-th state output of an earlier store to the
same address is redirected to that older store's k-th state operand,
cutting the dominated older store out of the state thread. -/
def redirect (g : List StoreNode) (consumer : StoreNode) (r : Ref) : Ref :=
  match r with
  | Ref.nodeOut j k =>
    match g[j]? with
    | some older =>
      if older.address = consumer.address then older.states.getD k r else r
    | none => r
  | r => r

/-- One pass of the store/store reduction over every node of the graph
(a no-op while the `store_store_reducible` toggle is off). -/
def store_store_normalize (nf : store_normal_form) (g : List StoreNode) :
    List StoreNode :=
  if nf.store_store_reducible_ then
    g.map fun nd => { nd with states := nd.states.map (redirect g nd) }
  else g

/-- Modelled from the spec (reduction catalogue, store multi-origin row:
"store has duplicate state inputs — deduplicate state inputs"), applied
to every node of the graph (a no-op while `multiple_origin_reducible` is
off). -/
def multiple_origin_normalize (nf : store_normal_form) (g : List StoreNode) :
    List StoreNode :=
  if nf.multiple_origin_reducible_ then
    g.map fun nd => { nd with states := nd.states.dedup }
  else g

/-- Does node `nd` consume any output of the node with index `j`? -/
def referencedBy (nd : StoreNode) (j : Nat) : Bool :=
  (nd.address :: nd.value :: nd.states).any fun r =>
    match r with
    | Ref.nodeOut i _ => i = j
    | _ => false

/-- Does the export list reference the node with index `j`? -/
def exportsReference (exports : List Ref) (j : Nat) : Bool :=
  exports.any fun r =>
    match r with
    | Ref.nodeOut i _ => i = j
    | _ => false

/-- `graph.prune()` on the store graph: the indices of nodes reachable
from the exports, computed from the last node downwards (a node is live
when an export or a live later node consumes one of its outputs; the node
list order makes consumers come after producers). -/
def liveNodes (g : List StoreNode) (exports : List Ref) : List Nat :=
  (List.range g.length).reverse.foldl
    (fun acc j =>
      if exportsReference exports j ||
          acc.any (fun i =>
            match g[i]? with
            | some nd => referencedBy nd j
            | none => false) then
        j :: acc
      else acc) []

/-- The nodes surviving `prune`, in graph order. -/
def prune (g : List StoreNode) (exports : List Ref) : List StoreNode :=
  (liveNodes g exports).filterMap fun j => g[j]?

/-- C2: for every pair of consecutive stores to the same address on the
same memory-state thread (the newer store's state operand is the older
store's state output), with the store/store reduction enabled,
normalization redirects the state thread past the older store and pruning
drops it: exactly one store remains, whose value operand is the newer
store's value and whose state operand is the older store's state operand
(the arrangement of TestStoreStoreReduction). -/
theorem store_store_reduction_drops_older (a v1 v2 s : Nat) :
    (prune
      (store_store_normalize
        { store_store_reducible_ := true, multiple_origin_reducible_ := false }
        [{ address := Ref.imp a, value := Ref.imp v1, states := [Ref.imp s] },
         { address := Ref.imp a, value := Ref.imp v2,
           states := [Ref.nodeOut 0 0] }])
      [Ref.nodeOut 1 0]).length = 1 ∧
    prune
      (store_store_normalize
        { store_store_reducible_ := true, multiple_origin_reducible_ := false }
        [{ address := Ref.imp a, value := Ref.imp v1, states := [Ref.imp s] },
         { address := Ref.imp a, value := Ref.imp v2,
           states := [Ref.nodeOut 0 0] }])
      [Ref.nodeOut 1 0] =
      [{ address := Ref.imp a, value := Ref.imp v2, states := [Ref.imp s] }] := by
  constructor <;>
    simp [store_store_normalize, redirect, prune, liveNodes, exportsReference,
      referencedBy, List.range_succ]

/-- C6: with the multiple-origin reduction enabled, normalization
deduplicates every store's state operands: every normalized node is an
original node with its state list deduplicated, so each state output
occurs exactly once; a state list repeating the same output k > 0 times
collapses to that output alone, and the four-fold duplicate of the test
yields a store with 3 inputs. -/
theorem store_multiple_origin_deduplicates (a v s k : Nat)
    (g : List StoreNode) (nd : StoreNode) :
    (nd ∈ multiple_origin_normalize
        { store_store_reducible_ := false, multiple_origin_reducible_ := true }
        g →
      (∃ nd0 ∈ g, nd = { nd0 with states := nd0.states.dedup }) ∧
      nd.states.Nodup ∧
      ∀ r ∈ nd.states, nd.states.count r = 1) ∧
    (k ≠ 0 → multiple_origin_normalize
        { store_store_reducible_ := false, multiple_origin_reducible_ := true }
        [{ address := Ref.imp a, value := Ref.imp v,
           states := List.replicate k (Ref.imp s) }] =
      [{ address := Ref.imp a, value := Ref.imp v, states := [Ref.imp s] }]) ∧
    (multiple_origin_normalize
        { store_store_reducible_ := false, multiple_origin_reducible_ := true }
        [{ address := Ref.imp a, value := Ref.imp v,
           states := List.replicate 4 (Ref.imp s) }]).map StoreNode.ninputs =
      [3] := by
  refine ⟨?_, ?_, ?_⟩
  · intro hmem
    rw [multiple_origin_normalize, if_pos rfl] at hmem
    rcases List.mem_map.mp hmem with ⟨nd0, hnd0, heq⟩
    refine ⟨⟨nd0, hnd0, heq.symm⟩, ?_, ?_⟩
    · rw [← heq]
      exact List.nodup_dedup _
    · intro r hr
      rw [← heq] at hr ⊢
      simp only [List.count_dedup]
      rw [if_pos (List.mem_dedup.mp hr)]
  · intro hk
    rw [multiple_origin_normalize, if_pos rfl]
    simp [List.replicate_dedup hk]
  · rw [multiple_origin_normalize, if_pos rfl]
    simp [List.replicate_dedup (by omega : (4 : Nat) ≠ 0), StoreNode.ninputs]

/-- Witness for C6: the concrete four-fold duplicate state reduces to a
single state input and the resulting node is duplicate-free. -/
theorem store_multiple_origin_deduplicates_witness :
    ([Ref.imp 2] : List Ref).Nodup ∧
    multiple_origin_normalize
        { store_store_reducible_ := false, multiple_origin_reducible_ := true }
        [{ address := Ref.imp 0, value := Ref.imp 1,
           states := List.replicate 4 (Ref.imp 2) }] =
      [{ address := Ref.imp 0, value := Ref.imp 1, states := [Ref.imp 2] }] := by
  have T := store_multiple_origin_deduplicates 0 1 2 4
    [{ address := Ref.imp 0, value := Ref.imp 1,
       states := List.replicate 4 (Ref.imp 2) }]
    { address := Ref.imp 0, value := Ref.imp 1, states := [Ref.imp 2] }
  exact ⟨(T.1 (by decide)).2.1, T.2.1 (by decide)⟩

end jlm.llvm.store
